import Mathlib

/-!
Verification development for the Octet BLI binding-kinetics repository
(src/Octet.py).  The kinetic model and the fit-engine control flow of
`Octet.fit_data` are embedded shallowly:

* times, concentrations and the dissociation time are rational numbers
  (the data the code manipulates with decidable comparisons and set
  membership), kinetic parameters and responses are real numbers, and
  `math.e**x` is `Real.exp`;
* the scipy `curve_fit` call is an external collaborator and is modelled
  as an oracle argument returning `some (kon, koff, rmax)` on
  convergence and `none` when it raises (non-convergence, or an
  exception escaping from the model function it calls);
* numpy operations that raise (out-of-range indexing at
  `t[dissoc_time*5]`, `len(set(conc)) == 0` division, a length mismatch
  in the broadcast `r0 * exp(...)`) make `binding` return `none`
  (numpy's length-1 scalar broadcast is not modelled; no input
  considered here exercises it);
* the seaborn/matplotlib plotting calls of `fit_data` are omitted as
  external collaborators and assumed not to raise, but the *binding* of
  the plot variable `s` is tracked, because the final `return popt, s`
  raises `UnboundLocalError` when `s` was never assigned: in Individual
  mode `s` is assigned only by a channel whose `try` block completes
  (`s_assigned`), while on every reachable successful Global-mode path
  the plotting loop runs at least once (a successful `binding` forces a
  non-empty `conc_range` and non-empty curve chunks), so `s` is always
  bound there; the printed "Fitting failed for <conc>" diagnostics of
  Individual mode are modelled as a list of failed concentrations.
-/

/-- Python exceptions that can escape `Octet.fit_data` in the modelled
control flow. -/
inductive PyErr where
  | runtimeError
  | numpyError
  | unboundLocalError
deriving DecidableEq

/-- Source: `Octet.py` line 124-125.
`association(t, conc, kon, koff, rmax)` returns
`(conc * rmax) / (conc + (koff / kon)) * (1 - math.e**(-1 * (kon * conc + koff) * t))`. -/
noncomputable def association (t conc kon koff rmax : ℝ) : ℝ :=
  (conc * rmax) / (conc + koff / kon) * (1 - Real.exp (-1 * (kon * conc + koff) * t))

/-- Source: `Octet.py` line 127-128.
`dissociation(t, r0, koff)` returns `r0 * math.e**(-1 * koff * t)`. -/
noncomputable def dissociation (t r0 koff : ℝ) : ℝ :=
  r0 * Real.exp (-1 * koff * t)

/-- Source: `Octet.py` lines 140-142, fused: `out` has
`association` at positions with `t < dissoc_time` (in order) and
consumes the precomputed dissociation values `ds` at positions with
`t >= dissoc_time` (in order).  This models the two numpy masked
assignments `out[t<dissoc_time] = ...` and `out[t>=dissoc_time] = ...`. -/
noncomputable def assemble (dissoc_time : ℕ) (kon koff rmax : ℝ) :
    List (ℚ × ℚ) → List ℝ → List ℝ
  | [], _ => []
  | p :: rest, ds =>
    if p.2 < (dissoc_time : ℚ) then
      association (p.2 : ℝ) (p.1 : ℝ) kon koff rmax :: assemble dissoc_time kon koff rmax rest ds
    else ds.headD 0 :: assemble dissoc_time kon koff rmax rest ds.tail

/-- Source: `Octet.py` lines 130-144, the local `binding(X, kon, koff, rmax)`
of `fit_data`, with `X = (conc, t)` and `dissoc_time` captured from the
enclosing call.  Faithful steps:

* `tPivot = t[dissoc_time*5]` (`none` = numpy `IndexError` when the
  index is out of range);
* `r0 = association(t[t==tPivot], conc[t==tPivot], kon, koff, rmax)`,
  vectorized over the masked pairs in order;
* `new_r0` repeats each entry of `r0`
  `int(len(t[t>=dissoc_time]) / len(set(conc)))` times (Python `int` of
  the true division, i.e. truncation: natural-number division here;
  `none` = `ZeroDivisionError` when `conc` has no distinct values);
* the broadcast `r0 * math.e**(...)` in the masked assignment requires
  `len(new_r0) = len(t[t>=dissoc_time])` (`none` = `ValueError`);
* `out[t<dissoc_time] = association(...)`,
  `out[t>=dissoc_time] = dissociation(t[t>=dissoc_time] - t[dissoc_time*5], new_r0, koff)`. -/
noncomputable def binding (dissoc_time : ℕ) (conc t : List ℚ) (kon koff rmax : ℝ) :
    Option (List ℝ) :=
  match t.get? (dissoc_time * 5) with
  | none => none
  | some tPivot =>
    let r0 : List ℝ :=
      ((conc.zip t).filter (fun p => p.2 = tPivot)).map
        (fun p => association (p.2 : ℝ) (p.1 : ℝ) kon koff rmax)
    let nDiss := (t.filter (fun x => (dissoc_time : ℚ) ≤ x)).length
    let nConc := conc.dedup.length
    if nConc = 0 then none
    else
      let new_r0 := r0.flatMap (fun item => List.replicate (nDiss / nConc) item)
      if new_r0.length = nDiss then
        some (assemble dissoc_time kon koff rmax (conc.zip t)
          (List.zipWith (fun (x : ℚ) (ri : ℝ) => dissociation ((x : ℝ) - (tPivot : ℝ)) ri koff)
            (t.filter (fun x => (dissoc_time : ℚ) ≤ x)) new_r0))
      else none

/-- Source: `Octet.py` line 169, `popt[1]/popt[0]`: the reported
equilibrium constant of a fitted parameter vector `(kon, koff, rmax)`. -/
noncomputable def Kd (kon koff : ℝ) : ℝ := koff / kon

/-- Model of `scipy.optimize.curve_fit(binding, combo_X, combo_Y)`:
an oracle from the input pairs `(conc_list, t_list)` and the observation
vector to `some (kon, koff, rmax)` on success, `none` when the call
raises. -/
abbrev CurveFitOracle : Type :=
  (List ℚ × List ℚ) → List ℝ → Option (ℝ × ℝ × ℝ)

/-- Result of a successful Global-mode fit: the shared parameter vector,
the reported Kd (line 169) and the fitted curve split back into
channel-sized chunks (line 173). -/
structure GlobalFitOutput where
  popt : ℝ × ℝ × ℝ
  kd : ℝ
  curves : List (List ℝ)

/-- Source: `Octet.py` lines 150-183 (`global_fit == True`,
`binding_model == '1to1'` branch of `fit_data`).  `combo_Y`
concatenates the response columns in order; `conc_list`/`t_list`
replicate each concentration (resp. the time axis) once per
concentration in `conc_range`.  `curve_fit` failure propagates (no
`try`), as does a numpy exception in the `binding` re-evaluation of
line 171. -/
noncomputable def fit_data_global (cf : CurveFitOracle) (dissoc_time : ℕ)
    (time : List ℚ) (cols : List (List ℝ)) (conc_range : List ℚ) :
    Except PyErr GlobalFitOutput :=
  let combo_Y := cols.flatten
  let conc_list := (conc_range.map (fun conc => List.replicate time.length conc)).flatten
  let t_list := (conc_range.map (fun _ => time)).flatten
  match cf (conc_list, t_list) combo_Y with
  | none => Except.error PyErr.runtimeError
  | some popt =>
    match binding dissoc_time conc_list t_list popt.1 popt.2.1 popt.2.2 with
    | none => Except.error PyErr.numpyError
    | some fitvals =>
      Except.ok ⟨popt, Kd popt.1 popt.2.1,
        fitvals.toChunks time.length⟩

/-- Source: `Octet.py` lines 194-212, the body of the Individual-mode
per-channel loop for one `(col, conc)` pair.  The `try` block appends
`popt[0..2]` to the three lists and then evaluates
`binding(combo_X, *popt)` for plotting; an exception there lands in the
`except`, which appends `None` to all three lists (a second row for this
channel) and prints the failed concentration.  Returns the rows this
channel contributes and the concentrations reported as failed. -/
noncomputable def fitChannel (cf : CurveFitOracle) (dissoc_time : ℕ) (time : List ℚ)
    (col : List ℝ) (conc : ℚ) :
    List (Option ℝ × Option ℝ × Option ℝ) × List ℚ :=
  match cf (List.replicate time.length conc, time) col with
  | some popt =>
    match binding dissoc_time (List.replicate time.length conc) time popt.1 popt.2.1 popt.2.2 with
    | some _ => ([(some popt.1, some popt.2.1, some popt.2.2)], [])
    | none => ([(some popt.1, some popt.2.1, some popt.2.2), (none, none, none)], [conc])
  | none => ([(none, none, none)], [conc])

/-- Source: `Octet.py` lines 186-215 (`global_fit == False`,
`binding_model == '1to1'` branch): iterate `fitChannel` over the
channels zipped with `conc_range` (Python `zip` truncates to the
shorter list), concatenating the appended rows and the failure
diagnostics in channel order. -/
noncomputable def fit_data_individual (cf : CurveFitOracle) (dissoc_time : ℕ)
    (time : List ℚ) (cols : List (List ℝ)) (conc_range : List ℚ) :
    List (Option ℝ × Option ℝ × Option ℝ) × List ℚ :=
  (cols.zip conc_range).foldr
    (fun p acc =>
      ((fitChannel cf dissoc_time time p.1 p.2).1 ++ acc.1,
       (fitChannel cf dissoc_time time p.1 p.2).2 ++ acc.2))
    ([], [])

/-- Source: `Octet.py` line 203 within lines 196-207: in Individual mode
the plot object `s` is assigned exactly when some processed channel's
`try` block runs to completion, i.e. its `curve_fit` succeeded and the
`binding` re-evaluation of line 202 raised no exception.  (The plotting
calls themselves are assumed not to raise.) -/
noncomputable def s_assigned (cf : CurveFitOracle) (dissoc_time : ℕ)
    (time : List ℚ) (cols : List (List ℝ)) (conc_range : List ℚ) : Bool :=
  (cols.zip conc_range).any (fun p =>
    match cf (List.replicate time.length p.2, time) p.1 with
    | some popt => (binding dissoc_time (List.replicate time.length p.2) time
        popt.1 popt.2.1 popt.2.2).isSome
    | none => false)

/-- Overall outcome of `Octet.fit_data`: the Global-mode tuple output or
the Individual-mode dataframe (rows of `Kon`/`Koff`/`Rmax`, `None` on
failure) together with the reported failed concentrations. -/
inductive FitOutcome where
  | globalFit : GlobalFitOutput → FitOutcome
  | individualFit : List (Option ℝ × Option ℝ × Option ℝ) × List ℚ → FitOutcome

/-- Source: `Octet.py` lines 106-217, `Octet.fit_data` control flow.
When `binding_model` is not `"1to1"` neither branch assigns `popt` (or
`s`), so the final `return popt, s` raises `UnboundLocalError`.  In the
Individual-mode `"1to1"` branch, `popt` is always assigned (line 215)
but `s` is assigned only inside a channel's completed `try` block
(line 203): when every processed channel failed — including when no
channel is processed at all — `return popt, s` raises
`UnboundLocalError`.  A successful Global-mode fit always reaches the
plotting loop of lines 175-176 with a non-empty `zip(conc_range,
split_fit)` (the `binding` success of line 171 forces a non-empty
`conc_range`, `time` and fitted-value vector), so `s` is bound on every
path on which this model returns a Global-mode success. -/
noncomputable def fit_data (cf : CurveFitOracle) (dissoc_time : ℕ) (time : List ℚ)
    (cols : List (List ℝ)) (conc_range : List ℚ)
    (binding_model : String) (global_fit : Bool) : Except PyErr FitOutcome :=
  if global_fit then
    if binding_model = "1to1" then
      (fit_data_global cf dissoc_time time cols conc_range).map FitOutcome.globalFit
    else Except.error PyErr.unboundLocalError
  else
    if binding_model = "1to1" then
      if s_assigned cf dissoc_time time cols conc_range then
        Except.ok (FitOutcome.individualFit
          (fit_data_individual cf dissoc_time time cols conc_range))
      else Except.error PyErr.unboundLocalError
    else Except.error PyErr.unboundLocalError

/-- Reported Kd of a `fit_data` outcome: Global mode reports
`popt[1]/popt[0]` (line 169); Individual mode computes no Kd at all
(lines 186-215). -/
noncomputable def outKd : Except PyErr FitOutcome → Option ℝ
  | Except.ok (FitOutcome.globalFit g) => some g.kd
  | _ => none

/-- Replicating one value against a list and zipping recovers the
pairing map. -/
theorem replicate_zip {α β : Type} (c : α) :
    ∀ l : List β, (List.replicate l.length c).zip l = l.map (fun x => (c, x))
  | [] => rfl
  | x :: l => by
    simp [List.replicate_succ, replicate_zip c l]

/-- Zipping a list against a replicate of its own length is a map. -/
theorem zipWith_replicate_length {α β γ : Type} (f : α → β → γ) (y : β) :
    ∀ l : List α, List.zipWith f l (List.replicate l.length y) = l.map (fun x => f x y)
  | [] => rfl
  | x :: l => by
    simp [List.replicate_succ, zipWith_replicate_length f y l]

/-- Length of the flattened constant-block list. -/
theorem flatten_map_const_length {α β : Type} (l : List α) :
    ∀ cs : List β, ((cs.map (fun _ => l)).flatten).length = cs.length * l.length
  | [] => by simp
  | c :: cs => by
    simp [flatten_map_const_length l cs, Nat.succ_mul, Nat.add_comm]

/-- Filtering the pairing map by a predicate on the second component
commutes with the map. -/
theorem filter_pair_map (q : ℚ → Prop) [DecidablePred q] (c : ℚ) :
    ∀ tax : List ℚ,
      (tax.map (fun x => (c, x))).filter (fun p => q p.2)
        = (tax.filter (fun x => q x)).map (fun x => (c, x))
  | [] => rfl
  | x :: tax => by
    by_cases h : q x <;>
      simp [List.filter_cons, h, filter_pair_map q c tax]

/-- The `assemble` step splits along an append of the input pairs,
consuming the dissociation values of the first part first. -/
theorem assemble_append (dt : ℕ) (kon koff rmax : ℝ) :
    ∀ (A B : List (ℚ × ℚ)) (ds : List ℝ),
      assemble dt kon koff rmax (A ++ B) ds
        = assemble dt kon koff rmax A
            (ds.take ((A.filter (fun p => (dt : ℚ) ≤ p.2)).length))
          ++ assemble dt kon koff rmax B
            (ds.drop ((A.filter (fun p => (dt : ℚ) ≤ p.2)).length))
  | [], B, ds => by simp [assemble]
  | p :: A, B, ds => by
    by_cases h : p.2 < (dt : ℚ)
    · have hf : ¬ ((dt : ℚ) ≤ p.2) := not_le.mpr h
      simp only [List.cons_append, assemble, if_pos h, List.filter_cons,
        decide_eq_true_eq, hf, if_false, List.append_eq,
        assemble_append dt kon koff rmax A B ds]
    · have hf : (dt : ℚ) ≤ p.2 := not_lt.mp h
      cases ds with
      | nil =>
        simp only [List.cons_append, assemble, if_neg h, List.filter_cons,
          decide_eq_true_eq, hf, if_true, List.length_cons, List.take_nil,
          List.drop_nil, List.tail_nil, List.append_eq,
          assemble_append dt kon koff rmax A B ([] : List ℝ)]
      | cons e ds =>
        simp only [List.cons_append, assemble, if_neg h, List.filter_cons,
          decide_eq_true_eq, hf, if_true, List.length_cons, List.take_succ_cons,
          List.drop_succ_cons, List.tail_cons, List.headD_cons, List.append_eq,
          assemble_append dt kon koff rmax A B ds]

/-- The `assemble` step on one channel block: association below the
threshold, the supplied per-sample dissociation values at or above it. -/
theorem assemble_block (dt : ℕ) (kon koff rmax : ℝ) (c : ℚ) (g : ℚ → ℝ) :
    ∀ tax : List ℚ,
      assemble dt kon koff rmax (tax.map (fun x => (c, x)))
          ((tax.filter (fun x => (dt : ℚ) ≤ x)).map g)
        = tax.map (fun x =>
            if x < (dt : ℚ) then association (x : ℝ) (c : ℝ) kon koff rmax else g x)
  | [] => rfl
  | x :: tax => by
    by_cases h : x < (dt : ℚ)
    · have hf : ¬ ((dt : ℚ) ≤ x) := not_le.mpr h
      simp only [List.map_cons, List.filter_cons, decide_eq_true_eq, hf, if_false,
        assemble, if_pos h, assemble_block dt kon koff rmax c g tax]
    · have hf : (dt : ℚ) ≤ x := not_lt.mp h
      simp only [List.map_cons, List.filter_cons, decide_eq_true_eq, hf, if_true,
        assemble, if_neg h, List.headD_cons, List.tail_cons,
        assemble_block dt kon koff rmax c g tax]

/-- The `assemble` step over the whole multi-channel combo input: each
channel consumes exactly its own block of dissociation values. -/
theorem assemble_flatten_blocks (dt : ℕ) (kon koff rmax : ℝ) (tax : List ℚ)
    (g : ℚ → ℚ → ℝ) :
    ∀ cs : List ℚ,
      assemble dt kon koff rmax
          ((cs.map (fun c => tax.map (fun x => (c, x)))).flatten)
          ((cs.map (fun c => (tax.filter (fun x => (dt : ℚ) ≤ x)).map (g c))).flatten)
        = (cs.map (fun (c : ℚ) => tax.map (fun x =>
            if x < (dt : ℚ) then association x c kon koff rmax
            else g c x))).flatten
  | [] => rfl
  | c :: cs => by
    have hlen : ((tax.map (fun x => (c, x))).filter
        (fun p => (dt : ℚ) ≤ p.2)).length
        = ((tax.filter (fun x => (dt : ℚ) ≤ x)).map (g c)).length := by
      rw [filter_pair_map (fun x => (dt : ℚ) ≤ x) c tax]
      simp
    simp only [List.map_cons, List.flatten_cons,
      assemble_append dt kon koff rmax (tax.map (fun x => (c, x))) _ _,
      hlen, List.take_left, List.drop_left,
      assemble_block dt kon koff rmax c (g c) tax,
      assemble_flatten_blocks dt kon koff rmax tax g cs]

/-- Element lookup in a flattened constant-block list stays in the first
block. -/
theorem flatten_const_get_first {α : Type} (l : List α) (n : ℕ) (hn : n < l.length) :
    ∀ cs : List ℚ, cs ≠ [] → ((cs.map (fun _ => l)).flatten).get? n = l.get? n
  | [], h => absurd rfl h
  | c :: cs, _ => by
    simp only [List.map_cons, List.flatten_cons]
    exact List.get?_append hn

/-- Zipping the replicated-concentration list with the replicated time
axis produces the per-channel pairing blocks (`Octet.py` lines 160-166
feed exactly this `X` into `binding`). -/
theorem combo_zip (tax : List ℚ) :
    ∀ cs : List ℚ,
      ((cs.map (fun c => List.replicate tax.length c)).flatten).zip
          ((cs.map (fun _ => tax)).flatten)
        = (cs.map (fun c => tax.map (fun x => (c, x)))).flatten
  | [] => rfl
  | c :: cs => by
    simp only [List.map_cons, List.flatten_cons]
    rw [List.zip_append (by simp), replicate_zip, combo_zip tax cs]

/-- When the pivot value occurs exactly once in the time axis, the mask
`t == t[dissoc_time*5]` selects exactly one sample per channel, in
channel order. -/
theorem combo_filter_pivot (tax : List ℚ) (tp : ℚ) (hcount : tax.count tp = 1) :
    ∀ cs : List ℚ,
      ((cs.map (fun c => tax.map (fun x => (c, x)))).flatten).filter
          (fun p => p.2 = tp)
        = cs.map (fun c => (c, tp))
  | [] => rfl
  | c :: cs => by
    have hft : tax.filter (fun x => x = tp) = [tp] := by
      rw [List.filter_eq, hcount, List.replicate_one]
    simp only [List.map_cons, List.flatten_cons, List.filter_append,
      filter_pair_map (fun x => x = tp) c tax, hft, List.map_cons, List.map_nil,
      combo_filter_pivot tax tp hcount cs]
    rfl

/-- Filtering the replicated time axis filters each block. -/
theorem combo_filter_threshold (tax : List ℚ) (q : ℚ → Prop) [DecidablePred q] :
    ∀ cs : List ℚ,
      ((cs.map (fun _ => tax)).flatten).filter (fun x => q x)
        = (cs.map (fun _ => tax.filter (fun x => q x))).flatten
  | [] => rfl
  | c :: cs => by
    simp only [List.map_cons, List.flatten_cons, List.filter_append,
      combo_filter_threshold tax q cs]

/-- The `new_r0` broadcast loop (`Octet.py` lines 135-138): each
channel's r0 value is replicated `d` times, in channel order. -/
theorem broadcast_r0 (tp : ℚ) (kon koff rmax : ℝ) (d : ℕ) :
    ∀ cs : List ℚ,
      ((cs.map (fun c => (c, tp))).map
          (fun p => association (p.2 : ℝ) (p.1 : ℝ) kon koff rmax)).flatMap
        (fun item => List.replicate d item)
        = (cs.map (fun (c : ℚ) =>
            List.replicate d (association (tp : ℝ) (c : ℝ) kon koff rmax))).flatten
  | [] => rfl
  | c :: cs => by
    simp only [List.map_cons, List.flatMap_cons, List.flatten_cons,
      broadcast_r0 tp kon koff rmax d cs]

/-- Length of the flattened broadcast list. -/
theorem flatten_map_replicate_length {α β : Type} (d : ℕ) (f : α → β) :
    ∀ cs : List α, ((cs.map (fun c => List.replicate d (f c))).flatten).length = cs.length * d
  | [] => by simp
  | c :: cs => by
    simp [flatten_map_replicate_length d f cs, Nat.succ_mul, Nat.add_comm]

/-- Zipping block-replicated values against a block-constant list acts
blockwise. -/
theorem zipWith_flatten_blocks {α β γ : Type} (f : α → β → γ) (l : List α) (g : ℚ → β) :
    ∀ cs : List ℚ,
      List.zipWith f ((cs.map (fun _ => l)).flatten)
          ((cs.map (fun c => List.replicate l.length (g c))).flatten)
        = (cs.map (fun c => l.map (fun x => f x (g c)))).flatten
  | [] => rfl
  | c :: cs => by
    simp only [List.map_cons, List.flatten_cons]
    rw [List.zipWith_append _ _ _ _ _ (by simp),
      zipWith_replicate_length f (g c) l, zipWith_flatten_blocks f l g cs]

/-- The flattened replicated-concentration list has the same distinct
values as the concentration list itself (`len(set(conc))`). -/
theorem flatten_replicate_toFinset (m : ℕ) (hm : m ≠ 0) :
    ∀ cs : List ℚ, ((cs.map (fun c => List.replicate m c)).flatten).toFinset = cs.toFinset
  | [] => by simp
  | c :: cs => by
    simp [List.toFinset_append, List.toFinset_replicate_of_ne_zero hm,
      flatten_replicate_toFinset m hm cs, ← Finset.insert_eq]

/-- The `len(set(conc))` computation on the combined input equals the
number of channels when the supplied concentrations are distinct. -/
theorem dedup_length_flatten_replicate (m : ℕ) (hm : m ≠ 0) (cs : List ℚ)
    (hnd : cs.Nodup) :
    ((cs.map (fun c => List.replicate m c)).flatten).dedup.length = cs.length := by
  rw [← List.card_toFinset, flatten_replicate_toFinset m hm cs,
    List.toFinset_card_of_nodup hnd]

/-- Characterization of `binding` on the combined input that `fit_data`
builds (each concentration paired with a copy of the time axis, in
channel order): provided the channel concentrations are distinct and the
pivot sample `t[dissoc_time*5]` exists and its time value occurs exactly
once per channel copy, `binding` succeeds and returns, per channel `c`
and sample `x`: `association x c` when `x < dissoc_time`, and otherwise
`dissociation (x - tp) r0c` where `tp = t[dissoc_time*5]` and
`r0c = association tp c` — the decay clock is anchored at the pivot
sample `t[dissoc_time*5]`, not at `dissoc_time` itself, and `r0c` is
broadcast to every dissociation-phase sample of channel `c`. -/
theorem binding_combo_spec (dt : ℕ) (cs tax : List ℚ) (tp : ℚ) (kon koff rmax : ℝ)
    (hne : cs ≠ []) (hnd : cs.Nodup)
    (htp : tax.get? (dt * 5) = some tp)
    (hcount : tax.count tp = 1) :
    binding dt ((cs.map (fun c => List.replicate tax.length c)).flatten)
        ((cs.map (fun _ => tax)).flatten) kon koff rmax
      = some ((cs.map (fun (c : ℚ) => tax.map (fun x =>
          if x < (dt : ℚ) then association x c kon koff rmax
          else dissociation ((x : ℝ) - (tp : ℝ))
            (association (tp : ℝ) (c : ℝ) kon koff rmax) koff))).flatten) := by
  have hlt : dt * 5 < tax.length := by
    by_contra hle
    rw [List.get?_eq_none.mpr (not_lt.mp hle)] at htp
    cases htp
  have hm : tax.length ≠ 0 := by
    intro h0
    rw [h0] at hlt
    cases hlt
  have hcs : cs.length ≠ 0 := fun h0 => hne (List.length_eq_zero.mp h0)
  have hpivot : ((cs.map (fun _ => tax)).flatten).get? (dt * 5) = some tp :=
    (flatten_const_get_first tax (dt * 5) hlt cs hne).trans htp
  simp only [binding, hpivot]
  rw [combo_zip tax cs, combo_filter_pivot tax tp hcount cs,
    combo_filter_threshold tax (fun x => (dt : ℚ) ≤ x) cs,
    dedup_length_flatten_replicate tax.length hm cs hnd,
    flatten_map_const_length (tax.filter (fun x => (dt : ℚ) ≤ x)) cs,
    if_neg hcs,
    Nat.mul_div_cancel_left _ (Nat.pos_of_ne_zero hcs),
    broadcast_r0 tp kon koff rmax (tax.filter (fun x => (dt : ℚ) ≤ x)).length cs,
    flatten_map_replicate_length,
    if_pos rfl,
    zipWith_flatten_blocks
      (fun (x : ℚ) (ri : ℝ) => dissociation ((x : ℝ) - (tp : ℝ)) ri koff)
      (tax.filter (fun x => (dt : ℚ) ≤ x))
      (fun c => association (tp : ℝ) (c : ℝ) kon koff rmax) cs,
    assemble_flatten_blocks dt kon koff rmax tax
      (fun c x => dissociation ((x : ℝ) - (tp : ℝ))
        (association (tp : ℝ) (c : ℝ) kon koff rmax) koff) cs]

/-- Lookup in a flattened list of equal-length blocks. -/
theorem flatten_get_blocks {α : Type} (m : ℕ) :
    ∀ (L : List (List α)) (j i : ℕ), (∀ l ∈ L, l.length = m) → i < m →
      (L.flatten).get? (j * m + i) = (L.get? j).bind (fun l => l.get? i)
  | [], j, i, _, _ => by simp
  | a :: L, 0, i, hL, hi => by
    have ha : a.length = m := hL a (by simp)
    simp only [List.flatten_cons, Nat.zero_mul, Nat.zero_add]
    rw [List.get?_append (by rw [ha]; exact hi)]
    simp
  | a :: L, j + 1, i, hL, hi => by
    have ha : a.length = m := hL a (by simp)
    simp only [List.flatten_cons]
    rw [List.get?_append_right (by rw [ha, Nat.succ_mul]; omega)]
    have harith : (j + 1) * m + i - a.length = j * m + i := by
      rw [ha, Nat.succ_mul]
      omega
    rw [harith, flatten_get_blocks m L j i (fun l hl => hL l (by simp [hl])) hi]
    simp

/-- C1 amended: on the combined input of `fit_data` (well-formed in the
sense of `binding_combo_spec`), every dissociation-phase sample of
channel `j` — sample `i` with `tax[i] ≥ dissoc_time` — receives
`dissociation (tax[i] - tp) r0j koff` where `tp = t[dissoc_time*5]` is
the pivot sample value (the implicit 5-samples-per-second assumption)
and `r0j = association tp (cs[j])` is broadcast to all of channel `j`'s
dissociation-phase samples.  The decay clock is anchored at the value at
index `dissoc_time*5`, which equals `dissoc_time` itself only when the
time axis really is sampled five times per second from zero. -/
theorem binding_dissociation_clock (dt : ℕ) (cs tax : List ℚ) (tp : ℚ)
    (kon koff rmax : ℝ) (hne : cs ≠ []) (hnd : cs.Nodup)
    (htp : tax.get? (dt * 5) = some tp) (hcount : tax.count tp = 1)
    (j i : ℕ) (hj : j < cs.length) (hi : i < tax.length)
    (hdiss : (dt : ℚ) ≤ tax.get ⟨i, hi⟩) :
    ((binding dt ((cs.map (fun c => List.replicate tax.length c)).flatten)
        ((cs.map (fun _ => tax)).flatten) kon koff rmax).getD []).get?
        (j * tax.length + i)
      = some (dissociation ((tax.get ⟨i, hi⟩ : ℝ) - (tp : ℝ))
          (association (tp : ℝ) ((cs.get ⟨j, hj⟩ : ℚ) : ℝ) kon koff rmax) koff) := by
  rw [binding_combo_spec dt cs tax tp kon koff rmax hne hnd htp hcount]
  simp only [Option.getD_some]
  rw [flatten_get_blocks tax.length _ j i (by simp) hi]
  simp [List.getElem?_eq_getElem hj, List.getElem?_eq_getElem hi, not_lt.mpr hdiss]
  intro h
  exact absurd h (not_lt.mpr hdiss)

/-- Witness for the amended C1: one channel at concentration 1, time
axis 0,1,...,9 (one sample per second), dissociation time 1.  The
sample at time 3 gets `dissociation (3 - 5) (association 5 1)`: the
pivot is `t[1*5] = 5`, not the dissociation time 1. -/
theorem binding_dissociation_clock_witness :
    ([(1 : ℚ)] ≠ []) ∧ ([(1 : ℚ)].Nodup)
    ∧ (([0, 1, 2, 3, 4, 5, 6, 7, 8, 9] : List ℚ).get? (1 * 5) = some 5)
    ∧ (([0, 1, 2, 3, 4, 5, 6, 7, 8, 9] : List ℚ).count 5 = 1)
    ∧ ((binding 1 (([(1 : ℚ)].map
          (fun c => List.replicate ([0, 1, 2, 3, 4, 5, 6, 7, 8, 9] : List ℚ).length c)).flatten)
        (([(1 : ℚ)].map (fun _ => ([0, 1, 2, 3, 4, 5, 6, 7, 8, 9] : List ℚ))).flatten)
        1 1 1).getD []).get? (0 * ([0, 1, 2, 3, 4, 5, 6, 7, 8, 9] : List ℚ).length + 3)
      = some (dissociation (((3 : ℚ) : ℝ) - ((5 : ℚ) : ℝ))
          (association ((5 : ℚ) : ℝ) ((1 : ℚ) : ℝ) 1 1 1) 1) := by
  refine ⟨by decide, by decide, by decide, by decide, ?_⟩
  exact binding_dissociation_clock 1 [(1 : ℚ)] [0, 1, 2, 3, 4, 5, 6, 7, 8, 9] 5 1 1 1
    (by decide) (by decide) (by decide) (by decide) 0 3 (by decide) (by decide) (by decide)

/-- C2 amended: the piecewise prediction is continuous at the transition
provided the time axis satisfies `t[dissoc_time*5] = dissoc_time` (the
original code's implicit five-samples-per-second assumption): then the
sample at time `dissoc_time` receives exactly the association-phase
value at the dissociation time, which is the r0 seeding that channel's
dissociation segment. -/
theorem binding_continuous_at_pivot (dt : ℕ) (cs tax : List ℚ)
    (kon koff rmax : ℝ) (hne : cs ≠ []) (hnd : cs.Nodup)
    (htp : tax.get? (dt * 5) = some (dt : ℚ)) (hcount : tax.count (dt : ℚ) = 1)
    (j : ℕ) (hj : j < cs.length) :
    ((binding dt ((cs.map (fun c => List.replicate tax.length c)).flatten)
        ((cs.map (fun _ => tax)).flatten) kon koff rmax).getD []).get?
        (j * tax.length + dt * 5)
      = some (association (((dt : ℚ)) : ℝ) ((cs.get ⟨j, hj⟩ : ℚ) : ℝ) kon koff rmax) := by
  have hlt : dt * 5 < tax.length := by
    by_contra hle
    rw [List.get?_eq_none.mpr (not_lt.mp hle)] at htp
    cases htp
  have hval : tax.get ⟨dt * 5, hlt⟩ = (dt : ℚ) :=
    Option.some.inj ((List.get?_eq_get hlt).symm.trans htp)
  have h := binding_dissociation_clock dt cs tax (dt : ℚ) kon koff rmax hne hnd htp
    hcount j (dt * 5) hj hlt (by rw [hval])
  rw [h, hval]
  have hz : (((dt : ℚ) : ℝ)) - (((dt : ℚ)) : ℝ) = 0 := sub_self _
  rw [hz]
  unfold dissociation
  simp [Real.exp_zero]

/-- Witness for the amended C2: two channels, a time axis with
`t[1*5] = 1` equal to the dissociation time 1; the transition sample of
channel 1 (concentration 2) equals `association 1 2` exactly. -/
theorem binding_continuous_at_pivot_witness :
    ([(1 : ℚ), 2] ≠ []) ∧ ([(1 : ℚ), 2].Nodup)
    ∧ (([0, 0, 0, 0, 0, 1, 2, 3] : List ℚ).get? (1 * 5) = some ((1 : ℕ) : ℚ))
    ∧ (([0, 0, 0, 0, 0, 1, 2, 3] : List ℚ).count ((1 : ℕ) : ℚ) = 1)
    ∧ ((binding 1 (([(1 : ℚ), 2].map
          (fun c => List.replicate ([0, 0, 0, 0, 0, 1, 2, 3] : List ℚ).length c)).flatten)
        (([(1 : ℚ), 2].map (fun _ => ([0, 0, 0, 0, 0, 1, 2, 3] : List ℚ))).flatten)
        1 1 1).getD []).get?
        (1 * ([0, 0, 0, 0, 0, 1, 2, 3] : List ℚ).length + 1 * 5)
      = some (association (((1 : ℕ) : ℚ) : ℝ) ((2 : ℚ) : ℝ) 1 1 1) := by
  refine ⟨by decide, by decide, by decide, by decide, ?_⟩
  exact binding_continuous_at_pivot 1 [(1 : ℚ), 2] [0, 0, 0, 0, 0, 1, 2, 3]
    1 1 1 (by decide) (by decide) (by decide) (by decide) 1 (by decide)

/-- Counterexample to C1: one channel at concentration 1 on the time
axis 0,1,...,9 (one sample per second) with dissociation time 1 and
kon = koff = rmax = 1.  The sample at time 3 receives
`dissociation (3 - 5) (association 5 1)` — clock and r0 anchored at
`t[1*5] = 5` — which differs from the claimed
`dissociation (3 - 1) (association 1 1)` anchored at the dissociation
time itself. -/
theorem binding_clock_not_at_dissoc_time :
    ((binding 1 (([(1 : ℚ)].map
          (fun c => List.replicate ([0, 1, 2, 3, 4, 5, 6, 7, 8, 9] : List ℚ).length c)).flatten)
        (([(1 : ℚ)].map (fun _ => ([0, 1, 2, 3, 4, 5, 6, 7, 8, 9] : List ℚ))).flatten)
        1 1 1).getD []).get? 3
      = some (dissociation (((3 : ℚ) : ℝ) - ((5 : ℚ) : ℝ))
          (association ((5 : ℚ) : ℝ) ((1 : ℚ) : ℝ) 1 1 1) 1)
    ∧ dissociation (((3 : ℚ) : ℝ) - ((5 : ℚ) : ℝ))
          (association ((5 : ℚ) : ℝ) ((1 : ℚ) : ℝ) 1 1 1) 1
      ≠ dissociation ((3 : ℝ) - 1) (association 1 1 1 1 1) 1 := by
  constructor
  · rw [binding_combo_spec 1 [(1 : ℚ)] [0, 1, 2, 3, 4, 5, 6, 7, 8, 9] 5 1 1 1
      (by decide) (by decide) (by decide) (by decide)]
    simp only [Option.getD_some, List.map_cons, List.map_nil, List.flatten_cons,
      List.flatten_nil, List.append_nil, List.get?_map]
    rfl
  · unfold dissociation association
    push_cast
    norm_num
    have h2 : (3 : ℝ) < Real.exp 2 := by
      have h := Real.add_one_lt_exp (show (2 : ℝ) ≠ 0 by norm_num)
      linarith
    have hm : Real.exp (-10) < Real.exp (-2) := Real.exp_lt_exp.mpr (by norm_num)
    have h1 : Real.exp (-2) < 1 := Real.exp_lt_one_iff.mpr (by norm_num)
    have hp : (0 : ℝ) < Real.exp (-10) := Real.exp_pos _
    have hp2 : (0 : ℝ) < Real.exp (-2) := Real.exp_pos _
    intro heq
    nlinarith [heq]

/-- Counterexample to C2: same input as the C1 counterexample.  The time
axis contains the dissociation time 1 (sample index 1), but the value at
that transition sample is `dissociation (1 - 5) (association 5 1)` —
seeded by the association value at `t[1*5] = 5` — which differs from the
association-phase value `association 1 1` at the dissociation time, so
the piecewise prediction is not continuous at `t = dissoc_time` there. -/
theorem binding_discontinuous_at_dissoc_time :
    ((binding 1 (([(1 : ℚ)].map
          (fun c => List.replicate ([0, 1, 2, 3, 4, 5, 6, 7, 8, 9] : List ℚ).length c)).flatten)
        (([(1 : ℚ)].map (fun _ => ([0, 1, 2, 3, 4, 5, 6, 7, 8, 9] : List ℚ))).flatten)
        1 1 1).getD []).get? 1
      = some (dissociation (((1 : ℚ) : ℝ) - ((5 : ℚ) : ℝ))
          (association ((5 : ℚ) : ℝ) ((1 : ℚ) : ℝ) 1 1 1) 1)
    ∧ dissociation (((1 : ℚ) : ℝ) - ((5 : ℚ) : ℝ))
          (association ((5 : ℚ) : ℝ) ((1 : ℚ) : ℝ) 1 1 1) 1
      ≠ association 1 1 1 1 1 := by
  constructor
  · rw [binding_combo_spec 1 [(1 : ℚ)] [0, 1, 2, 3, 4, 5, 6, 7, 8, 9] 5 1 1 1
      (by decide) (by decide) (by decide) (by decide)]
    simp only [Option.getD_some, List.map_cons, List.map_nil, List.flatten_cons,
      List.flatten_nil, List.append_nil, List.get?_map]
    rfl
  · unfold dissociation association
    push_cast
    norm_num
    have h4 : (5 : ℝ) < Real.exp 4 := by
      have h := Real.add_one_lt_exp (show (4 : ℝ) ≠ 0 by norm_num)
      linarith
    have hm : Real.exp (-10) < Real.exp (-2) := Real.exp_lt_exp.mpr (by norm_num)
    have h1 : Real.exp (-2) < 1 := Real.exp_lt_one_iff.mpr (by norm_num)
    have hp : (0 : ℝ) < Real.exp (-10) := Real.exp_pos _
    have hp2 : (0 : ℝ) < Real.exp (-2) := Real.exp_pos _
    intro heq
    nlinarith [heq]

/-- Rescaling the concentration by `s` and the on-rate by `1/s` leaves
the association response unchanged. -/
theorem association_scale (s : ℝ) (hs : s ≠ 0) (t conc kon koff rmax : ℝ) :
    association t (s * conc) (kon / s) koff rmax = association t conc kon koff rmax := by
  unfold association
  have h1 : kon / s * (s * conc) = kon * conc := by
    field_simp
    ring
  have h2 : s * conc + koff / (kon / s) = s * (conc + koff / kon) := by
    rw [div_div_eq_mul_div]
    ring
  rw [h1, h2, show s * conc * rmax = s * (conc * rmax) by ring,
    mul_div_mul_left _ _ hs]

/-- Rescaling the concentration column of the pairs and the on-rate
reciprocally leaves the `assemble` output unchanged. -/
theorem assemble_scale (s : ℚ) (hs : s ≠ 0) (dt : ℕ) (kon koff rmax : ℝ) :
    ∀ (pairs : List (ℚ × ℚ)) (ds : List ℝ),
      assemble dt (kon / (s : ℝ)) koff rmax
          (pairs.map (fun p => (s * p.1, p.2))) ds
        = assemble dt kon koff rmax pairs ds
  | [], _ => rfl
  | p :: pairs, ds => by
    by_cases h : p.2 < (dt : ℚ)
    · simp only [List.map_cons, assemble, if_pos h,
        assemble_scale s hs dt kon koff rmax pairs ds]
      congr 1
      push_cast
      exact association_scale (s : ℝ) (by exact_mod_cast hs) _ _ kon koff rmax
    · simp only [List.map_cons, assemble, if_neg h,
        assemble_scale s hs dt kon koff rmax pairs ds.tail]

/-- Uniformly rescaling all concentrations by `s ≠ 0` while rescaling
`kon` by `1/s` leaves the whole piecewise prediction unchanged. -/
theorem binding_scale (s : ℚ) (hs : s ≠ 0) (dt : ℕ) (conc t : List ℚ)
    (kon koff rmax : ℝ) :
    binding dt (conc.map (fun c => s * c)) t (kon / (s : ℝ)) koff rmax
      = binding dt conc t kon koff rmax := by
  unfold binding
  cases htp : t.get? (dt * 5) with
  | none => rfl
  | some tp =>
    have hzip : (conc.map (fun c => s * c)).zip t
        = (conc.zip t).map (fun p => (s * p.1, p.2)) := by
      rw [show (fun (p : ℚ × ℚ) => (s * p.1, p.2))
          = Prod.map (fun c => s * c) id from rfl]
      exact List.zip_map_left (fun c => s * c) conc t
    have hfilter : ((conc.zip t).map (fun p => (s * p.1, p.2))).filter
          (fun p => p.2 = tp)
        = ((conc.zip t).filter (fun p => p.2 = tp)).map (fun p => (s * p.1, p.2)) := by
      rw [List.filter_map]
      rfl
    have hr0 : (((conc.zip t).filter (fun p => p.2 = tp)).map
            (fun p => (s * p.1, p.2))).map
          (fun p => association (p.2 : ℝ) (p.1 : ℝ) (kon / (s : ℝ)) koff rmax)
        = ((conc.zip t).filter (fun p => p.2 = tp)).map
          (fun p => association (p.2 : ℝ) (p.1 : ℝ) kon koff rmax) := by
      rw [List.map_map]
      refine List.map_congr_left (fun p hp => ?_)
      simp only [Function.comp]
      push_cast
      exact association_scale (s : ℝ) (by exact_mod_cast hs) _ _ kon koff rmax
    have hdedup : (conc.map (fun c => s * c)).dedup.length = conc.dedup.length := by
      rw [List.dedup_map_of_injective (mul_right_injective₀ hs) conc,
        List.length_map]
    simp only [hzip, hfilter, hr0, hdedup]
    rw [assemble_scale s hs dt kon koff rmax (conc.zip t)]

/-- C9: for every rescaling factor s > 0, uniformly rescaling all
concentrations by s while rescaling kon by 1/s leaves the model's
predicted responses (`binding` and `association`) unchanged, and the
reported Kd = koff/kon depends only on the koff/kon ratio. -/
theorem rescaling_invariance (s : ℚ) (hs : 0 < s) (dt : ℕ) (conc t : List ℚ)
    (kon koff rmax : ℝ) :
    binding dt (conc.map (fun c => s * c)) t (kon / (s : ℝ)) koff rmax
      = binding dt conc t kon koff rmax
    ∧ (∀ tv cv : ℝ, association tv (((s : ℚ) : ℝ) * cv) (kon / (s : ℝ)) koff rmax
        = association tv cv kon koff rmax)
    ∧ (∀ kon1 koff1 kon2 koff2 : ℝ, kon1 ≠ 0 → kon2 ≠ 0 →
        koff1 * kon2 = koff2 * kon1 → Kd kon1 koff1 = Kd kon2 koff2) := by
  have hs0 : s ≠ 0 := ne_of_gt hs
  refine ⟨binding_scale s hs0 dt conc t kon koff rmax,
    fun tv cv => association_scale ((s : ℚ) : ℝ) (by exact_mod_cast hs0) tv cv kon koff rmax,
    fun kon1 koff1 kon2 koff2 h1 h2 hr => ?_⟩
  unfold Kd
  exact (div_eq_div_iff h1 h2).mpr hr

/-- Witness for C9 at s = 2 on a two-sample axis. -/
theorem rescaling_invariance_witness :
    (0 : ℚ) < 2 ∧
      (binding 1 ([(3 : ℚ)].map (fun c => 2 * c)) [0, 1] (1 / ((2 : ℚ) : ℝ)) 1 1
        = binding 1 [(3 : ℚ)] [0, 1] 1 1 1
      ∧ (∀ tv cv : ℝ, association tv (((2 : ℚ) : ℝ) * cv) (1 / ((2 : ℚ) : ℝ)) 1 1
          = association tv cv 1 1 1)
      ∧ (∀ kon1 koff1 kon2 koff2 : ℝ, kon1 ≠ 0 → kon2 ≠ 0 →
          koff1 * kon2 = koff2 * kon1 → Kd kon1 koff1 = Kd kon2 koff2)) :=
  ⟨by norm_num, rescaling_invariance 2 (by norm_num) 1 [(3 : ℚ)] [0, 1] 1 1 1⟩

/-- A list element fetched inside its length is the default-free value. -/
theorem get_some_getD {α : Type} (l : List α) (i : ℕ) (d : α) (h : i < l.length) :
    l.get? i = some (l.getD i d) := by
  rw [List.getD_eq_get?, List.get?_eq_get h]
  rfl

/-- Pointwise description of `List.zip` lookups. -/
theorem zip_get {α β : Type} :
    ∀ (l1 : List α) (l2 : List β) (i : ℕ),
      (l1.zip l2).get? i = (l1.get? i).bind (fun a => (l2.get? i).map (fun b => (a, b)))
  | [], _, _ => by simp
  | _ :: _, [], i => by
    cases i <;> simp [List.zip_nil_right]
  | a :: l1, b :: l2, 0 => rfl
  | a :: l1, b :: l2, i + 1 => by
    simp only [List.zip_cons_cons, List.get?_cons_succ, zip_get l1 l2 i]

/-- Structure of the Individual-mode loop when every successful
`curve_fit` is followed by a successful `binding` re-evaluation (which
is forced in practice: `curve_fit` itself evaluates `binding` on the
same `combo_X`, whose control flow does not depend on the trial
parameters): each channel contributes exactly one row — its fitted
parameters on success, a `None` row on failure — and the failed
concentrations are exactly those whose `curve_fit` raised. -/
theorem fit_ind_spec (cf : CurveFitOracle) (dt : ℕ) (time : List ℚ) :
    ∀ (cols : List (List ℝ)) (conc_range : List ℚ),
      cols.length = conc_range.length →
      (∀ j, j < cols.length → ∀ p : ℝ × ℝ × ℝ,
        cf (List.replicate time.length (conc_range.getD j 0), time) (cols.getD j []) = some p →
        (binding dt (List.replicate time.length (conc_range.getD j 0)) time
          p.1 p.2.1 p.2.2).isSome = true) →
      (fit_data_individual cf dt time cols conc_range).1
        = (cols.zip conc_range).map (fun q =>
            match cf (List.replicate time.length q.2, time) q.1 with
            | some p => (some p.1, some p.2.1, some p.2.2)
            | none => (none, none, none))
      ∧ (fit_data_individual cf dt time cols conc_range).2
        = ((cols.zip conc_range).filter (fun q =>
            (cf (List.replicate time.length q.2, time) q.1).isNone)).map (fun q => q.2)
  | [], conc_range, _, _ => by
    constructor <;> rfl
  | c :: cols, [], hlen, _ => by cases hlen
  | c :: cols, r :: rs, hlen, hbind => by
    have htail : (List.zipWith Prod.mk cols rs).foldr
        (fun p acc =>
          ((fitChannel cf dt time p.1 p.2).1 ++ acc.1,
           (fitChannel cf dt time p.1 p.2).2 ++ acc.2)) ([], [])
        = fit_data_individual cf dt time cols rs := rfl
    have ih := fit_ind_spec cf dt time cols rs (by simpa using hlen)
      (fun j hj p hp => hbind (j + 1) (by simpa using hj) p hp)
    cases hcf : cf (List.replicate time.length r, time) c with
    | some p =>
      have hb := hbind 0 (by simp) p (by simpa using hcf)
      simp only [List.getD_cons_zero] at hb
      obtain ⟨v, hv⟩ := Option.isSome_iff_exists.mp hb
      constructor
      · show ((fitChannel cf dt time c r).1 ++ _) = _
        rw [htail]
        simp only [fitChannel, hcf, hv, List.zip_cons_cons, List.map_cons, ih.1]
        rfl
      · show ((fitChannel cf dt time c r).2 ++ _) = _
        rw [htail]
        simp only [fitChannel, hcf, hv, List.zip_cons_cons, List.filter_cons, ih.2]
        simp [Option.isNone, hcf]
    | none =>
      constructor
      · show ((fitChannel cf dt time c r).1 ++ _) = _
        rw [htail]
        simp only [fitChannel, hcf, List.zip_cons_cons, List.map_cons, ih.1]
        rfl
      · show ((fitChannel cf dt time c r).2 ++ _) = _
        rw [htail]
        simp only [fitChannel, hcf, List.zip_cons_cons, List.filter_cons, ih.2]
        simp [Option.isNone, hcf]

/-- C4: in Individual mode, one channel's `curve_fit` failure only marks
that channel's row `None` and reports its concentration; every other
channel is still processed, the output keeps one row per input channel
in order, and successfully fitted channels keep their parameter rows.
(The hypothesis on `binding` re-evaluation rules out the double-append
anomaly that cannot occur when `curve_fit` already evaluated `binding`
on the same input; Individual mode computes no Kd at all.) -/
theorem individual_failure_isolated (cf : CurveFitOracle) (dt : ℕ) (time : List ℚ)
    (cols : List (List ℝ)) (conc_range : List ℚ)
    (hlen : cols.length = conc_range.length)
    (hbind : ∀ j, j < cols.length → ∀ p : ℝ × ℝ × ℝ,
      cf (List.replicate time.length (conc_range.getD j 0), time) (cols.getD j []) = some p →
      (binding dt (List.replicate time.length (conc_range.getD j 0)) time
        p.1 p.2.1 p.2.2).isSome = true)
    (i : ℕ) (hi : i < cols.length)
    (hfail : cf (List.replicate time.length (conc_range.getD i 0), time)
      (cols.getD i []) = none) :
    (fit_data_individual cf dt time cols conc_range).1.length = cols.length
    ∧ (fit_data_individual cf dt time cols conc_range).1.get? i
        = some (none, none, none)
    ∧ conc_range.getD i 0 ∈ (fit_data_individual cf dt time cols conc_range).2
    ∧ (∀ j, j < cols.length → ∀ p : ℝ × ℝ × ℝ,
        cf (List.replicate time.length (conc_range.getD j 0), time) (cols.getD j []) = some p →
        (fit_data_individual cf dt time cols conc_range).1.get? j
          = some (some p.1, some p.2.1, some p.2.2)) := by
  obtain ⟨hslots, hfailed⟩ := fit_ind_spec cf dt time cols conc_range hlen hbind
  have hzip : ∀ j, j < cols.length →
      (cols.zip conc_range).get? j = some (cols.getD j [], conc_range.getD j 0) := by
    intro j hj
    rw [zip_get, get_some_getD cols j [] hj,
      get_some_getD conc_range j 0 (by rw [← hlen]; exact hj)]
    rfl
  refine ⟨?_, ?_, ?_, ?_⟩
  · rw [hslots, List.length_map, List.length_zip, hlen, Nat.min_self, ← hlen]
  · rw [hslots, List.get?_map, hzip i hi, Option.map_some']
    show some (match cf (List.replicate time.length (conc_range.getD i 0), time)
        (cols.getD i []) with
      | some p => (some p.1, some p.2.1, some p.2.2)
      | none => (none, none, none)) = some ((none, none, none))
    rw [hfail]
  · rw [hfailed]
    refine List.mem_map.mpr ⟨(cols.getD i [], conc_range.getD i 0), ?_, rfl⟩
    refine List.mem_filter.mpr ⟨List.get?_mem (hzip i hi), ?_⟩
    rw [hfail]
    rfl
  · intro j hj p hp
    rw [hslots, List.get?_map, hzip j hj, Option.map_some']
    show some (match cf (List.replicate time.length (conc_range.getD j 0), time)
        (cols.getD j []) with
      | some p => (some p.1, some p.2.1, some p.2.2)
      | none => (none, none, none)) = some ((some p.1, some p.2.1, some p.2.2))
    rw [hp]

/-- Witness for C4: two channels with concentrations 2 and 3 on the time
axis 0..9, dissociation time 1; the oracle fails on concentration 2 and
succeeds with (1,1,1) on concentration 3. -/
theorem individual_failure_isolated_witness :
    ([[(1 : ℝ)], [(2 : ℝ)]] : List (List ℝ)).length = ([2, 3] : List ℚ).length ∧
    ((fit_data_individual
        (fun X _ => if X.1.getD 0 0 = (3 : ℚ) then some ((1 : ℝ), 1, 1) else none)
        1 [0, 1, 2, 3, 4, 5, 6, 7, 8, 9] [[(1 : ℝ)], [(2 : ℝ)]] [2, 3]).1.length
      = ([[(1 : ℝ)], [(2 : ℝ)]] : List (List ℝ)).length
    ∧ (fit_data_individual
        (fun X _ => if X.1.getD 0 0 = (3 : ℚ) then some ((1 : ℝ), 1, 1) else none)
        1 [0, 1, 2, 3, 4, 5, 6, 7, 8, 9] [[(1 : ℝ)], [(2 : ℝ)]] [2, 3]).1.get? 0
      = some (none, none, none)
    ∧ ([2, 3] : List ℚ).getD 0 0 ∈ (fit_data_individual
        (fun X _ => if X.1.getD 0 0 = (3 : ℚ) then some ((1 : ℝ), 1, 1) else none)
        1 [0, 1, 2, 3, 4, 5, 6, 7, 8, 9] [[(1 : ℝ)], [(2 : ℝ)]] [2, 3]).2
    ∧ (∀ j, j < ([[(1 : ℝ)], [(2 : ℝ)]] : List (List ℝ)).length → ∀ p : ℝ × ℝ × ℝ,
        (fun (X : List ℚ × List ℚ) (_ : List ℝ) =>
            if X.1.getD 0 0 = (3 : ℚ) then some ((1 : ℝ), 1, 1) else none)
          (List.replicate ([0, 1, 2, 3, 4, 5, 6, 7, 8, 9] : List ℚ).length
            (([2, 3] : List ℚ).getD j 0), [0, 1, 2, 3, 4, 5, 6, 7, 8, 9])
          (([[(1 : ℝ)], [(2 : ℝ)]] : List (List ℝ)).getD j []) = some p →
        (fit_data_individual
          (fun X _ => if X.1.getD 0 0 = (3 : ℚ) then some ((1 : ℝ), 1, 1) else none)
          1 [0, 1, 2, 3, 4, 5, 6, 7, 8, 9] [[(1 : ℝ)], [(2 : ℝ)]] [2, 3]).1.get? j
          = some (some p.1, some p.2.1, some p.2.2))) := by
  refine ⟨rfl, ?_⟩
  refine individual_failure_isolated
    (fun X _ => if X.1.getD 0 0 = (3 : ℚ) then some ((1 : ℝ), 1, 1) else none)
    1 [0, 1, 2, 3, 4, 5, 6, 7, 8, 9] [[(1 : ℝ)], [(2 : ℝ)]] [2, 3] rfl ?_ 0 (by decide) rfl
  intro j hj p hp
  simp only [List.length_cons, List.length_nil] at hj
  interval_cases j
  · have hp2 : (none : Option (ℝ × ℝ × ℝ)) = some p := hp
    cases hp2
  · have hp2 : (some ((1 : ℝ), 1, 1) : Option (ℝ × ℝ × ℝ)) = some p := hp
    cases hp2
    rfl

/-- C5: in Global mode, if the optimizer does not converge the whole
`fit_data` call fails with the propagated error and no partial result —
no fitted parameter vector, no Kd and no fitted curves are produced. -/
theorem global_failure_atomic (cf : CurveFitOracle) (dt : ℕ) (time : List ℚ)
    (cols : List (List ℝ)) (conc_range : List ℚ)
    (hfail : cf ((conc_range.map (fun conc => List.replicate time.length conc)).flatten,
        (conc_range.map (fun _ => time)).flatten) cols.flatten = none) :
    fit_data cf dt time cols conc_range "1to1" true
      = Except.error PyErr.runtimeError := by
  unfold fit_data fit_data_global
  rw [if_pos rfl, if_pos rfl]
  simp only [hfail]
  rfl

/-- Witness for C5 with an always-failing optimizer oracle. -/
theorem global_failure_atomic_witness :
    ((fun (_ : List ℚ × List ℚ) (_ : List ℝ) => (none : Option (ℝ × ℝ × ℝ)))
        ((([(2 : ℚ)]).map (fun conc => List.replicate ([0, 1] : List ℚ).length conc)).flatten,
          (([(2 : ℚ)]).map (fun _ => ([0, 1] : List ℚ))).flatten)
        ([[(1 : ℝ), 2]] : List (List ℝ)).flatten = none)
    ∧ fit_data (fun _ _ => none) 3 [0, 1] [[(1 : ℝ), 2]] [(2 : ℚ)] "1to1" true
      = Except.error PyErr.runtimeError :=
  ⟨rfl, global_failure_atomic (fun _ _ => none) 3 [0, 1] [[(1 : ℝ), 2]] [(2 : ℚ)] rfl⟩

/-- Counterexample to C6: a call with concentration-list length 1 but 2
response channels, and with the dissociation time equal to the first
time-axis sample, is not rejected: no validation runs, Individual mode
silently zip-truncates to the single pair, fits it successfully and
returns an ordinary fitted row — no InputShapeError, nothing fatal. -/
theorem fit_data_no_shape_validation :
    fit_data (fun _ _ => some ((1 : ℝ), 1, 1)) 0 [0, 1, 2, 3, 4, 5]
        [[(1 : ℝ)], [(2 : ℝ)]] [(3 : ℚ)] "1to1" false
      = Except.ok (FitOutcome.individualFit
          ([(some (1 : ℝ), some (1 : ℝ), some (1 : ℝ))], [])) := by
  rfl

/-- C6 amended: `fit_data` performs no input-shape validation — no
InputShapeError exists anywhere in the code.  Whatever the channel count
and concentration-list length (including mismatched ones, silently
zip-truncated) and wherever the dissociation time lies (including at or
outside the time-axis boundaries), an Individual-mode call in which some
processed channel fits successfully returns the ordinary output; the
only failure such inputs can produce is the incidental unbound-plot-
variable error of `return popt, s` when every channel fails. -/
theorem fit_data_individual_no_input_validation (cf : CurveFitOracle) (dt : ℕ)
    (time : List ℚ) (cols : List (List ℝ)) (conc_range : List ℚ)
    (hs : s_assigned cf dt time cols conc_range = true) :
    fit_data cf dt time cols conc_range "1to1" false
      = Except.ok (FitOutcome.individualFit
          (fit_data_individual cf dt time cols conc_range)) := by
  unfold fit_data
  rw [if_neg (by simp), if_pos rfl, if_pos hs]

/-- Witness for the amended C6: three channels against two
concentrations (mismatched lengths) with the dissociation time at the
first sample of the two-sample axis; both processed channels succeed and
the call returns normally. -/
theorem fit_data_individual_no_input_validation_witness :
    s_assigned (fun _ _ => some ((1 : ℝ), 1, 1)) 0 [0, 1]
        [[(1 : ℝ)], [(2 : ℝ)], [(3 : ℝ)]] [2, 3] = true
    ∧ fit_data (fun _ _ => some ((1 : ℝ), 1, 1)) 0 [0, 1]
        [[(1 : ℝ)], [(2 : ℝ)], [(3 : ℝ)]] [2, 3] "1to1" false
      = Except.ok (FitOutcome.individualFit
          (fit_data_individual (fun _ _ => some ((1 : ℝ), 1, 1)) 0 [0, 1]
            [[(1 : ℝ)], [(2 : ℝ)], [(3 : ℝ)]] [2, 3])) :=
  ⟨rfl, fit_data_individual_no_input_validation (fun _ _ => some ((1 : ℝ), 1, 1))
    0 [0, 1] [[(1 : ℝ)], [(2 : ℝ)], [(3 : ℝ)]] [2, 3] rfl⟩

/-- C8 counterexample: a Global-mode fit whose optimizer returns
kon = 0 completes as an ordinary success — the reported Kd is the
unguarded quotient `1 / 0`, neither a signalled error nor a missing
value. -/
theorem kd_unguarded_at_zero_kon :
    outKd (fit_data (fun _ _ => some ((0 : ℝ), 1, 1)) 1 [0, 1, 2, 3, 4, 5]
        [[(1 : ℝ)]] [(1 : ℚ)] "1to1" true)
      = some ((1 : ℝ) / 0) := by
  rfl

/-- C8 amended: for every successful Global-mode fit the reported
equilibrium constant is exactly the quotient koff/kon of the fitted
vector, with no guard at kon = 0 (the division is performed regardless
and the call still succeeds); Individual mode never computes a Kd at
all. -/
theorem kd_is_quotient_of_fit (cf : CurveFitOracle) (dt : ℕ) (time : List ℚ)
    (cols : List (List ℝ)) (conc_range : List ℚ) (kon koff rmax : ℝ)
    (hcf : cf ((conc_range.map (fun conc => List.replicate time.length conc)).flatten,
        (conc_range.map (fun _ => time)).flatten) cols.flatten = some (kon, koff, rmax))
    (hbind : (binding dt
        ((conc_range.map (fun conc => List.replicate time.length conc)).flatten)
        ((conc_range.map (fun _ => time)).flatten) kon koff rmax).isSome = true) :
    outKd (fit_data cf dt time cols conc_range "1to1" true) = some (koff / kon)
    ∧ outKd (fit_data cf dt time cols conc_range "1to1" false) = none := by
  constructor
  · obtain ⟨v, hv⟩ := Option.isSome_iff_exists.mp hbind
    unfold fit_data fit_data_global
    rw [if_pos rfl, if_pos rfl]
    simp only [hcf, hv]
    rfl
  · unfold fit_data
    rw [if_neg (by simp), if_pos rfl]
    split <;> rfl

/-- Witness for the amended C8: oracle returning (2, 1, 1) on a
one-channel dataset; the reported Kd is 1/2 and Individual mode reports
no Kd. -/
theorem kd_is_quotient_of_fit_witness :
    ((fun (_ : List ℚ × List ℚ) (_ : List ℝ) => some ((2 : ℝ), 1, 1))
        ((([(1 : ℚ)]).map (fun conc => List.replicate ([0, 1, 2, 3, 4, 5] : List ℚ).length conc)).flatten,
          (([(1 : ℚ)]).map (fun _ => ([0, 1, 2, 3, 4, 5] : List ℚ))).flatten)
        ([[(1 : ℝ)]] : List (List ℝ)).flatten = some ((2 : ℝ), 1, 1))
    ∧ ((binding 1 ((([(1 : ℚ)]).map
          (fun conc => List.replicate ([0, 1, 2, 3, 4, 5] : List ℚ).length conc)).flatten)
        ((([(1 : ℚ)]).map (fun _ => ([0, 1, 2, 3, 4, 5] : List ℚ))).flatten) 2 1 1).isSome = true)
    ∧ (outKd (fit_data (fun _ _ => some ((2 : ℝ), 1, 1)) 1 [0, 1, 2, 3, 4, 5]
          [[(1 : ℝ)]] [(1 : ℚ)] "1to1" true) = some ((1 : ℝ) / 2)
      ∧ outKd (fit_data (fun _ _ => some ((2 : ℝ), 1, 1)) 1 [0, 1, 2, 3, 4, 5]
          [[(1 : ℝ)]] [(1 : ℚ)] "1to1" false) = none) :=
  ⟨rfl, rfl,
    kd_is_quotient_of_fit (fun _ _ => some ((2 : ℝ), 1, 1)) 1 [0, 1, 2, 3, 4, 5]
      [[(1 : ℝ)]] [(1 : ℚ)] 2 1 1 rfl rfl⟩

/-- Counterexample to C10: a `fit_data` call with binding model "2to1"
is not a silent no-op — it fails with an unbound-local-variable error
(the final `return popt, s` references names never assigned). -/
theorem other_model_raises :
    fit_data (fun _ _ => none) 1 [(0 : ℚ)] [[(1 : ℝ)]] [(5 : ℚ)] "2to1" true
      = Except.error PyErr.unboundLocalError := by
  rfl

/-- C10 amended: for every binding-model name other than "1to1", in
either mode, `fit_data` produces no fitted output and raises an
unbound-local-variable error at its return statement (Python
`UnboundLocalError`: `popt` and `s` are never assigned), rather than
silently returning nothing. -/
theorem other_model_unbound_local (cf : CurveFitOracle) (dt : ℕ) (time : List ℚ)
    (cols : List (List ℝ)) (conc_range : List ℚ) (binding_model : String)
    (global_fit : Bool) (hbm : binding_model ≠ "1to1") :
    fit_data cf dt time cols conc_range binding_model global_fit
      = Except.error PyErr.unboundLocalError := by
  unfold fit_data
  cases global_fit <;> simp [hbm]

/-- Witness for the amended C10 at model name "3to1", Individual mode. -/
theorem other_model_unbound_local_witness :
    ("3to1" : String) ≠ "1to1"
    ∧ fit_data (fun _ _ => none) 0 [(0 : ℚ)] [[(1 : ℝ)]] [(5 : ℚ)] "3to1" false
      = Except.error PyErr.unboundLocalError :=
  ⟨by decide,
    other_model_unbound_local (fun _ _ => none) 0 [(0 : ℚ)] [[(1 : ℝ)]] [(5 : ℚ)]
      "3to1" false (by decide)⟩

/-- C3: for every t ≥ 0, conc, rmax, koff and kon > 0, `association`
returns `(conc*rmax)/(conc + koff/kon) * (1 - exp (-(kon*conc + koff)*t))`,
and in particular `association 0 conc kon koff rmax = 0`. -/
theorem association_formula_and_zero_at_origin (t conc kon koff rmax : ℝ)
    (ht : 0 ≤ t) (hkon : 0 < kon) :
    association t conc kon koff rmax
      = (conc * rmax) / (conc + koff / kon) * (1 - Real.exp (-(kon * conc + koff) * t))
    ∧ association 0 conc kon koff rmax = 0 := by
  constructor
  · unfold association
    norm_num
  · unfold association
    simp [Real.exp_zero]

/-- Witness for C3 at `t = 1`, `conc = kon = koff = rmax = 1`. -/
theorem association_formula_and_zero_at_origin_witness :
    (0 : ℝ) ≤ 1 ∧ (0 : ℝ) < 1 ∧
      (association 1 1 1 1 1
        = ((1 : ℝ) * 1) / (1 + 1 / 1) * (1 - Real.exp (-((1 : ℝ) * 1 + 1) * 1))
      ∧ association 0 1 1 1 1 = 0) :=
  ⟨by norm_num, by norm_num,
    association_formula_and_zero_at_origin 1 1 1 1 1 (by norm_num) (by norm_num)⟩

/-- Counterexample to C7: at `kon = -1 ≤ 0` the code signals no error;
`association` evaluates the arithmetic formula and returns a plain
numeric value (here `association 0 1 (-1) 2 1 = 0`). -/
theorem association_negative_kon_returns_number :
    association 0 1 (-1) 2 1 = 0 := by
  unfold association
  simp [Real.exp_zero]

/-- C7 amended: `association` performs no validation of `kon`; for every
`kon ≤ 0` it evaluates the same unguarded arithmetic formula (no
`DegenerateParameterError` exists in the code), and at `t = 0` it still
returns the numeric value `0`. -/
theorem association_no_kon_guard (t conc kon koff rmax : ℝ) (hkon : kon ≤ 0) :
    association t conc kon koff rmax
      = (conc * rmax) / (conc + koff / kon) * (1 - Real.exp (-1 * (kon * conc + koff) * t))
    ∧ association 0 conc kon koff rmax = 0 := by
  refine ⟨rfl, ?_⟩
  unfold association
  simp [Real.exp_zero]

/-- Witness for the amended C7 at `kon = -2`. -/
theorem association_no_kon_guard_witness :
    (-2 : ℝ) ≤ 0 ∧
      (association 3 1 (-2) 5 7
        = ((1 : ℝ) * 7) / (1 + 5 / (-2)) * (1 - Real.exp (-1 * ((-2 : ℝ) * 1 + 5) * 3))
      ∧ association 0 1 (-2) 5 7 = 0) :=
  ⟨by norm_num, association_no_kon_guard 3 1 (-2) 5 7 (by norm_num)⟩
